import Mathlib

/-!
Verification of `scripts/lang.py` from plantree/bing-translator.

The script issues one HTTP GET, decodes the response body as JSON,
projects the `translation` field into a flat code-to-name mapping, and
prints that mapping as indented, key-sorted JSON:

    def get_support_languages():
        url = "..."
        response = requests.get(url).json()
        lang_map = {}
        for key, value in response["translation"].items():
            lang_map[key] = value["name"]
        return lang_map

    if __name__ == "__main__":
        lang_map = get_support_languages()
        print(json.dumps(lang_map, indent=4, sort_keys=True))

The embedding models JSON values (`Json`, with objects as `Members`
keeping Python-dict insertion order), the Python runtime faults the
script can raise (`PyError`), Python subscript / `.items()` / dict
assignment semantics (`getItem`, `items`, `dictInsert`), the loop of
`get_support_languages` (`buildLangMap`), `json.dumps` with `indent=4,
sort_keys=True` (`json_dumps`), and the `__main__` entry point with the
newline `print` appends (`lang_main`).

An `HttpResponse` carries the HTTP status code and the outcome of
`Response.json()`: decoding is a pure function of the body bytes, so
identical bodies yield identical `jsonBody` fields, and a body that is
not valid JSON yields `.error .valueError` (a `json.JSONDecodeError`).
-/

namespace BingTranslator

mutual
/-- A JSON value as decoded by the Python `json` module.  Numbers are
modelled as integers (the language listing uses none). -/
inductive Json where
  | null : Json
  | bool : Bool → Json
  | num : Int → Json
  | str : String → Json
  | arr : Elems → Json
  | obj : Members → Json

/-- The elements of a JSON array, in order. -/
inductive Elems where
  | nil : Elems
  | cons : Json → Elems → Elems

/-- The key/value pairs of a JSON object, in Python-dict insertion
order. -/
inductive Members where
  | nil : Members
  | cons : String → Json → Members → Members
end

deriving instance DecidableEq for Json

/-- The Python exceptions the script can raise. -/
inductive PyError where
  | keyError : String → PyError
  | typeError : PyError
  | attributeError : PyError
  | valueError : PyError
deriving Repr, DecidableEq

/-- Python dict lookup `d[k]` as an option: the value stored at `k`. -/
def Members.lookup : Members → String → Option Json
  | .nil, _ => none
  | .cons k v ms, key => if k == key then some v else ms.lookup key

/-- Whether the dict has key `k` (`k in d`). -/
def Members.hasKey : Members → String → Bool
  | .nil, _ => false
  | .cons k _ ms, key => k == key || ms.hasKey key

/-- Overwrite the value stored at an existing key, in place. -/
def Members.setKey : Members → String → Json → Members
  | .nil, _, _ => .nil
  | .cons k v ms, key, nv =>
    if k == key then .cons k nv (ms.setKey key nv)
    else .cons k v (ms.setKey key nv)

/-- Concatenation of member lists. -/
def Members.append : Members → Members → Members
  | .nil, ms => ms
  | .cons k v ms, tail => .cons k v (ms.append tail)

/-- The pairs of the object, as a list (for stating membership). -/
def Members.toList : Members → List (String × Json)
  | .nil => []
  | .cons k v ms => (k, v) :: ms.toList

/-- The keys of the object, in insertion order. -/
def Members.keys : Members → List String
  | .nil => []
  | .cons k _ ms => k :: ms.keys

/-- Rewrite every value with a function of the key and the old value,
keeping the keys and their order. -/
def Members.mapVals (f : String → Json → Json) : Members → Members
  | .nil => .nil
  | .cons k v ms => .cons k (f k v) (ms.mapVals f)

/-- Python subscript `x[k]` for a string key `k`: a dict either yields
the stored value or raises `KeyError(k)`; every non-dict value raises
`TypeError` when subscripted with a string. -/
def getItem : Json → String → Except PyError Json
  | .obj kvs, k =>
    match kvs.lookup k with
    | some v => .ok v
    | none => .error (.keyError k)
  | _, _ => .error .typeError

/-- Python `x.items()`: dicts yield their pairs in insertion order;
every other value raises `AttributeError`. -/
def items : Json → Except PyError Members
  | .obj kvs => .ok kvs
  | _ => .error .attributeError

/-- Python dict assignment `d[k] = v`: overwrite in place when the key
exists, otherwise append at the end (insertion order). -/
def dictInsert (d : Members) (k : String) (v : Json) : Members :=
  if d.hasKey k then d.setKey k v else d.append (.cons k v .nil)

/-- The loop of `get_support_languages`:
`for key, value in ...: lang_map[key] = value["name"]`,
starting from the accumulated dict `acc`. -/
def buildLangMap (acc : Members) : Members → Except PyError Members
  | .nil => .ok acc
  | .cons key value rest =>
    match getItem value "name" with
    | .ok n => buildLangMap (dictInsert acc key n) rest
    | .error e => .error e

/-- The HTTP response of `requests.get(url)`: the status code and the
outcome of `.json()` on the body. -/
structure HttpResponse where
  statusCode : Nat
  jsonBody : Except PyError Json

/-- `get_support_languages()` from `scripts/lang.py`, as a function of
the HTTP response it receives.  It decodes the body, subscripts the
result with `"translation"`, iterates the items and stores each
descriptor field `"name"` under its code; any fault propagates. -/
def get_support_languages (resp : HttpResponse) : Except PyError Members :=
  match resp.jsonBody with
  | .error e => .error e
  | .ok response =>
    match getItem response "translation" with
    | .error e => .error e
    | .ok translation =>
      match items translation with
      | .error e => .error e
      | .ok entries => buildLangMap .nil entries

/-- One lowercase hexadecimal digit, as Python formats code points. -/
def hexDigit (n : Nat) : Char :=
  if n < 10 then Char.ofNat (48 + n) else Char.ofNat (87 + n)

/-- Four lowercase hexadecimal digits. -/
def hex4 (n : Nat) : String :=
  String.mk [hexDigit (n / 4096 % 16), hexDigit (n / 256 % 16),
             hexDigit (n / 16 % 16), hexDigit (n % 16)]

/-- The escaping `json.dumps` applies to one character of a string with
the default `ensure_ascii=True`: quote, backslash and the named control
escapes, `\uXXXX` for the other characters outside `0x20`-`0x7e`, and
surrogate pairs beyond the basic multilingual plane. -/
def escapeChar (c : Char) : String :=
  if c = '"' then "\\\""
  else if c = '\\' then "\\\\"
  else if c = '\n' then "\\n"
  else if c = '\t' then "\\t"
  else if c = '\r' then "\\r"
  else if c.toNat = 8 then "\\b"
  else if c.toNat = 12 then "\\f"
  else if c.toNat < 32 then "\\u" ++ hex4 c.toNat
  else if c.toNat < 127 then String.singleton c
  else if c.toNat < 65536 then "\\u" ++ hex4 c.toNat
  else
    "\\u" ++ hex4 (55296 + (c.toNat - 65536) / 1024) ++
    "\\u" ++ hex4 (56320 + (c.toNat - 65536) % 1024)

/-- A JSON string literal as `json.dumps` renders it. -/
def dumpsString (s : String) : String :=
  "\"" ++ String.join (s.toList.map escapeChar) ++ "\""

/-- `n` spaces. -/
def pad (n : Nat) : String := String.mk (List.replicate n ' ')

/-- Lexicographic order on character lists by code point: how Python
compares strings. -/
def charListLe : List Char → List Char → Bool
  | [], _ => true
  | _ :: _, [] => false
  | c :: cs, d :: ds =>
    if c.toNat < d.toNat then true
    else if d.toNat < c.toNat then false
    else charListLe cs ds

/-- Python `a <= b` on strings: lexicographic by code point. -/
def strLe (a b : String) : Bool := charListLe a.toList b.toList

/-- Insert a pair into a key-sorted member list, keeping it sorted.
Keys of a Python dict are unique, so ties never arise when this models
`sorted(d.items())`. -/
def insertSorted (k : String) (v : Json) : Members → Members
  | .nil => .cons k v .nil
  | .cons k2 v2 ms =>
    if strLe k k2 then .cons k v (.cons k2 v2 ms)
    else .cons k2 v2 (insertSorted k v ms)

mutual
/-- Sort every object of a JSON value by key, recursively: the order
`sort_keys=True` makes the encoder visit members in. -/
def sortJson : Json → Json
  | .null => .null
  | .bool b => .bool b
  | .num n => .num n
  | .str s => .str s
  | .arr xs => .arr (sortElems xs)
  | .obj ms => .obj (sortMembers ms)

/-- `sortJson` on every element of an array. -/
def sortElems : Elems → Elems
  | .nil => .nil
  | .cons x xs => .cons (sortJson x) (sortElems xs)

/-- Insertion sort by key, `sortJson` applied to every value. -/
def sortMembers : Members → Members
  | .nil => .nil
  | .cons k v ms => insertSorted k (sortJson v) (sortMembers ms)
end

mutual
/-- `json.dumps(j, indent=4)` once objects are already key-sorted, at
nesting level `lvl`: empty containers collapse, non-empty ones put each
element on its own line indented by `4 * (lvl + 1)` spaces, separated
by `,\n`, the key separator is `: `, and the closing bracket is
indented by `4 * lvl` spaces. -/
def dumpsJson : Json → Nat → String
  | .null, _ => "null"
  | .bool b, _ => if b then "true" else "false"
  | .num n, _ => toString n
  | .str s, _ => dumpsString s
  | .arr .nil, _ => "[]"
  | .arr (.cons x xs), lvl =>
    "[\n" ++ dumpsElems (.cons x xs) (lvl + 1) ++ "\n" ++ pad (4 * lvl) ++ "]"
  | .obj .nil, _ => "\x7b\x7d"
  | .obj (.cons k v ms), lvl =>
    "\x7b\n" ++ dumpsMembers (.cons k v ms) (lvl + 1) ++ "\n" ++
    pad (4 * lvl) ++ "\x7d"

/-- The lines of a non-empty array, its elements, `,\n`-separated, each
indented by `4 * lvl`. -/
def dumpsElems : Elems → Nat → String
  | .nil, _ => ""
  | .cons x .nil, lvl => pad (4 * lvl) ++ dumpsJson x lvl
  | .cons x (.cons y ys), lvl =>
    pad (4 * lvl) ++ dumpsJson x lvl ++ ",\n" ++ dumpsElems (.cons y ys) lvl

/-- The lines of a non-empty object, its members, `,\n`-separated, each
`"key": value` indented by `4 * lvl`. -/
def dumpsMembers : Members → Nat → String
  | .nil, _ => ""
  | .cons k v .nil, lvl =>
    pad (4 * lvl) ++ dumpsString k ++ ": " ++ dumpsJson v lvl
  | .cons k v (.cons k2 v2 ms), lvl =>
    pad (4 * lvl) ++ dumpsString k ++ ": " ++ dumpsJson v lvl ++ ",\n" ++
    dumpsMembers (.cons k2 v2 ms) lvl
end

/-- `json.dumps(j, indent=4, sort_keys=True)`. -/
def json_dumps (j : Json) : String := dumpsJson (sortJson j) 0

/-- The `__main__` block of `scripts/lang.py`:
`print(json.dumps(get_support_languages(), indent=4, sort_keys=True))`.
On success the result is the exact text written to standard output,
including the newline `print` appends; otherwise the uncaught exception
that terminates the process. -/
def lang_main (resp : HttpResponse) : Except PyError String :=
  match get_support_languages resp with
  | .error e => .error e
  | .ok lang_map => .ok (json_dumps (Json.obj lang_map) ++ "\n")


/-! ### Helper lemmas about member lists and the projection loop -/

theorem Members.append_nil : ∀ ms : Members, ms.append .nil = ms
  | .nil => rfl
  | .cons _ _ rest => by rw [Members.append, Members.append_nil rest]

theorem Members.append_assoc : ∀ a b c : Members,
    (a.append b).append c = a.append (b.append c)
  | .nil, _, _ => rfl
  | .cons _ _ ms, b, c => by
    rw [Members.append, Members.append, Members.append,
        Members.append_assoc ms b c]

theorem Members.hasKey_append : ∀ (a b : Members) (k : String),
    (a.append b).hasKey k = (a.hasKey k || b.hasKey k)
  | .nil, _, _ => by simp [Members.append, Members.hasKey]
  | .cons _ _ ms, b, k => by
    simp [Members.append, Members.hasKey, Members.hasKey_append ms b k,
          Bool.or_assoc]

/-- Assignment under a fresh key appends the pair at the end. -/
theorem dictInsert_fresh (d : Members) (k : String) (v : Json)
    (h : d.hasKey k = false) : dictInsert d k v = d.append (.cons k v .nil) := by
  simp [dictInsert, h]

/-- Reduction of the body of `get_support_languages` when the decoded
response is an object whose `translation` member is itself an object. -/
theorem get_support_languages_eq_build (status : Nat) (body entries : Members)
    (htr : body.lookup "translation" = some (Json.obj entries)) :
    get_support_languages ⟨status, Except.ok (Json.obj body)⟩ =
      buildLangMap .nil entries := by
  simp [get_support_languages, getItem, htr, items]

/-- When every entry of `entries` carries a `name` member given by `f`,
no key of `entries` collides with `acc` and the keys of `entries` are
distinct, the loop succeeds and appends one pair per entry, in order. -/
theorem buildLangMap_names (f : String → Json → Json) :
    ∀ (entries acc : Members),
      (∀ p ∈ entries.toList, getItem p.2 "name" = Except.ok (f p.1 p.2)) →
      (∀ k ∈ entries.keys, acc.hasKey k = false) →
      entries.keys.Nodup →
      buildLangMap acc entries = Except.ok (acc.append (entries.mapVals f))
  | .nil, acc, _, _, _ => by
    simp [buildLangMap, Members.mapVals, Members.append_nil]
  | .cons k v rest, acc, hnames, hacc, hnodup => by
    have hk : getItem v "name" = Except.ok (f k v) :=
      hnames (k, v) (by simp [Members.toList])
    have hacck : acc.hasKey k = false := hacc k (by simp [Members.keys])
    have hknotin : k ∉ rest.keys := by
      simp only [Members.keys, List.nodup_cons] at hnodup
      exact hnodup.1
    have hrest : ∀ p ∈ rest.toList, getItem p.2 "name" = Except.ok (f p.1 p.2) := by
      intro p hp
      exact hnames p (by simp [Members.toList, hp])
    have haccrest : ∀ k2 ∈ rest.keys,
        (acc.append (.cons k (f k v) .nil)).hasKey k2 = false := by
      intro k2 hk2
      rw [Members.hasKey_append]
      have h1 : acc.hasKey k2 = false := hacc k2 (by simp [Members.keys, hk2])
      have h2 : ¬ k = k2 := fun he => hknotin (he ▸ hk2)
      simp [Members.hasKey, h1, h2]
    have hnodup2 : rest.keys.Nodup := by
      simp only [Members.keys, List.nodup_cons] at hnodup
      exact hnodup.2
    have ih := buildLangMap_names f rest (acc.append (.cons k (f k v) .nil))
      hrest haccrest hnodup2
    calc buildLangMap acc (.cons k v rest)
        = buildLangMap (dictInsert acc k (f k v)) rest := by
          simp only [buildLangMap, hk]
      _ = buildLangMap (acc.append (.cons k (f k v) .nil)) rest := by
          rw [dictInsert_fresh acc k (f k v) hacck]
      _ = Except.ok ((acc.append (.cons k (f k v) .nil)).append (rest.mapVals f)) := ih
      _ = Except.ok (acc.append (.cons k (f k v) (rest.mapVals f))) := by
          rw [Members.append_assoc]
          rfl

/-- When some entry of `entries` raises on the `name` subscript, the
loop raises, whatever was accumulated before. -/
theorem buildLangMap_faulty_entry :
    ∀ (entries acc : Members) (p : String × Json), p ∈ entries.toList →
      (∃ e, getItem p.2 "name" = Except.error e) →
      (buildLangMap acc entries).isOk = false
  | .nil, _, p, hp, _ => by simp [Members.toList] at hp
  | .cons k v rest, acc, p, hp, hex => by
    obtain ⟨e, he⟩ := hex
    simp only [Members.toList, List.mem_cons] at hp
    rcases hp with rfl | hmem
    · simp [buildLangMap, he, Except.isOk, Except.toBool]
    · cases hgi : getItem v "name" with
      | error e2 => simp [buildLangMap, hgi, Except.isOk, Except.toBool]
      | ok n =>
        have := buildLangMap_faulty_entry rest (dictInsert acc k n) p hmem ⟨e, he⟩
        simpa [buildLangMap, hgi] using this

/-! ### The claims -/

/-- Claim C1: for every response whose `translation` field is a mapping
from language codes to descriptor objects each carrying a `name` field,
`get_support_languages` returns a mapping with exactly one entry per
language code, sending each code to the `name` value of its descriptor;
in particular the en/fr mock response yields the en/fr Language Map. -/
theorem get_support_languages_maps_each_code (status : Nat)
    (body entries : Members) (names : String → Json → String)
    (htr : body.lookup "translation" = some (Json.obj entries))
    (hnames : ∀ p ∈ entries.toList,
      getItem p.2 "name" = Except.ok (Json.str (names p.1 p.2)))
    (hnodup : entries.keys.Nodup) :
    get_support_languages ⟨status, Except.ok (Json.obj body)⟩ =
      Except.ok (entries.mapVals fun k v => Json.str (names k v)) := by
  rw [get_support_languages_eq_build status body entries htr]
  exact buildLangMap_names (fun k v => Json.str (names k v)) entries .nil
    hnames (fun k _ => rfl) hnodup

/-- Claim C1, instantiated at the mock response of the spec. -/
theorem get_support_languages_maps_each_code_witness :
    get_support_languages ⟨200, Except.ok (Json.obj (.cons "translation"
        (Json.obj (.cons "en" (Json.obj (.cons "name" (Json.str "English") .nil))
          (.cons "fr" (Json.obj (.cons "name" (Json.str "French") .nil)) .nil)))
        .nil))⟩ =
      Except.ok (.cons "en" (Json.str "English")
        (.cons "fr" (Json.str "French") .nil)) :=
  get_support_languages_maps_each_code 200
    (.cons "translation"
      (Json.obj (.cons "en" (Json.obj (.cons "name" (Json.str "English") .nil))
        (.cons "fr" (Json.obj (.cons "name" (Json.str "French") .nil)) .nil)))
      .nil)
    (.cons "en" (Json.obj (.cons "name" (Json.str "English") .nil))
      (.cons "fr" (Json.obj (.cons "name" (Json.str "French") .nil)) .nil))
    (fun k _ => if k == "en" then "English" else "French")
    rfl
    (by
      intro p hp
      simp only [Members.toList, List.mem_cons, List.not_mem_nil, or_false] at hp
      rcases hp with rfl | rfl <;> rfl)
    (by decide)

/-- Claim C2: a decoded body that lacks the `translation` field makes
`get_support_languages` raise (`KeyError` on an object without the
field, `TypeError` on a non-object); it never returns a mapping, empty
or partial. -/
theorem missing_translation_raises (status : Nat) (body : Json)
    (h : ∀ ms, body = Json.obj ms → ms.lookup "translation" = none) :
    (get_support_languages ⟨status, Except.ok body⟩).isOk = false := by
  cases body with
  | obj ms =>
    simp [get_support_languages, getItem, h ms rfl, Except.isOk, Except.toBool]
  | null => rfl
  | bool b => rfl
  | num n => rfl
  | str str => rfl
  | arr xs => rfl

/-- Claim C2, instantiated at an object body without `translation`. -/
theorem missing_translation_raises_witness :
    (get_support_languages ⟨200, Except.ok (Json.obj
        (.cons "dictionary" (Json.obj .nil) .nil))⟩).isOk = false :=
  missing_translation_raises 200 (Json.obj (.cons "dictionary" (Json.obj .nil) .nil))
    (by intro ms hm; cases hm; rfl)

/-- Claim C3: when some descriptor under `translation` lacks a `name`
field, `get_support_languages` raises instead of returning a mapping
with any default or substituted value. -/
theorem missing_name_raises (status : Nat) (body entries d : Members)
    (k : String)
    (htr : body.lookup "translation" = some (Json.obj entries))
    (hmem : (k, Json.obj d) ∈ entries.toList)
    (hname : d.lookup "name" = none) :
    (get_support_languages ⟨status, Except.ok (Json.obj body)⟩).isOk = false := by
  rw [get_support_languages_eq_build status body entries htr]
  exact buildLangMap_faulty_entry entries .nil (k, Json.obj d) hmem
    ⟨PyError.keyError "name", by simp [getItem, hname]⟩

/-- Claim C3, instantiated at a response whose second descriptor has no
`name` field. -/
theorem missing_name_raises_witness :
    (get_support_languages ⟨200, Except.ok (Json.obj (.cons "translation"
        (Json.obj (.cons "aa" (Json.obj (.cons "name" (Json.str "Afar") .nil))
          (.cons "zz" (Json.obj .nil) .nil))) .nil))⟩).isOk = false :=
  missing_name_raises 200
    (.cons "translation"
      (Json.obj (.cons "aa" (Json.obj (.cons "name" (Json.str "Afar") .nil))
        (.cons "zz" (Json.obj .nil) .nil))) .nil)
    (.cons "aa" (Json.obj (.cons "name" (Json.str "Afar") .nil))
      (.cons "zz" (Json.obj .nil) .nil))
    .nil "zz" rfl
    (by simp [Members.toList]) rfl

/-- Claim C4: the entry point serializes the Language Map with 4-space
indentation and lexicographically sorted keys and appends a newline;
for the en/fr mapping the key `en` is printed before `fr` regardless of
the order the response lists the entries in. -/
theorem lang_main_output_sorted_indented :
    lang_main ⟨200, Except.ok (Json.obj (.cons "translation" (Json.obj
        (.cons "fr" (Json.obj (.cons "name" (Json.str "French") .nil))
          (.cons "en" (Json.obj (.cons "name" (Json.str "English") .nil)) .nil)))
        .nil))⟩ =
      Except.ok "\x7b\n    \"en\": \"English\",\n    \"fr\": \"French\"\n\x7d\n" ∧
    lang_main ⟨200, Except.ok (Json.obj (.cons "translation" (Json.obj
        (.cons "en" (Json.obj (.cons "name" (Json.str "English") .nil))
          (.cons "fr" (Json.obj (.cons "name" (Json.str "French") .nil)) .nil)))
        .nil))⟩ =
      Except.ok "\x7b\n    \"en\": \"English\",\n    \"fr\": \"French\"\n\x7d\n" :=
  ⟨rfl, rfl⟩

/-- Claim C5: a `translation` field with zero entries yields the empty
Language Map, and the entry point prints exactly the line containing
the two braces. -/
theorem empty_translation_prints_empty_object (status : Nat) :
    get_support_languages ⟨status, Except.ok (Json.obj
        (.cons "translation" (Json.obj .nil) .nil))⟩ = Except.ok .nil ∧
    lang_main ⟨status, Except.ok (Json.obj
        (.cons "translation" (Json.obj .nil) .nil))⟩ =
      Except.ok "\x7b\x7d\n" :=
  ⟨rfl, rfl⟩

/-- Claim C6: the printed output is a function of the response body
alone, so any two invocations on identical bodies print byte-identical
output. -/
theorem lang_main_deterministic_in_body (r1 r2 : HttpResponse)
    (h : r1.jsonBody = r2.jsonBody) : lang_main r1 = lang_main r2 := by
  obtain ⟨s1, b1⟩ := r1
  obtain ⟨s2, b2⟩ := r2
  cases h
  rfl

/-- Claim C6, instantiated at two responses with the same body and
different status codes. -/
theorem lang_main_deterministic_in_body_witness :
    lang_main ⟨200, Except.ok (Json.obj (.cons "translation"
        (Json.obj (.cons "en" (Json.obj (.cons "name" (Json.str "English") .nil))
          .nil)) .nil))⟩ =
    lang_main ⟨503, Except.ok (Json.obj (.cons "translation"
        (Json.obj (.cons "en" (Json.obj (.cons "name" (Json.str "English") .nil))
          .nil)) .nil))⟩ :=
  lang_main_deterministic_in_body ⟨200, _⟩ ⟨503, _⟩ rfl

/-- Claim C7: the HTTP status code is never inspected — two responses
with identical bodies and different status codes are processed
identically, result and failure alike. -/
theorem status_code_never_inspected (s1 s2 : Nat)
    (b : Except PyError Json) :
    get_support_languages ⟨s1, b⟩ = get_support_languages ⟨s2, b⟩ := rfl

/-- Claim C8: error atomicity — when some descriptor under
`translation` lacks a `name` field, no mapping is returned at all, not
even one holding the entries processed before the faulty descriptor. -/
theorem missing_name_no_partial_map (status : Nat) (body entries d : Members)
    (k : String)
    (htr : body.lookup "translation" = some (Json.obj entries))
    (hmem : (k, Json.obj d) ∈ entries.toList)
    (hname : d.lookup "name" = none) :
    ∀ m, get_support_languages ⟨status, Except.ok (Json.obj body)⟩ ≠
      Except.ok m := by
  intro m hm
  have h : (get_support_languages ⟨status, Except.ok (Json.obj body)⟩).isOk
      = false := by
    rw [get_support_languages_eq_build status body entries htr]
    exact buildLangMap_faulty_entry entries .nil (k, Json.obj d) hmem
      ⟨PyError.keyError "name", by simp [getItem, hname]⟩
  rw [hm] at h
  simp [Except.isOk, Except.toBool] at h

/-- Claim C8, instantiated: the partial mapping holding the already
processed `aa` entry is not returned. -/
theorem missing_name_no_partial_map_witness :
    get_support_languages ⟨200, Except.ok (Json.obj (.cons "translation"
        (Json.obj (.cons "aa" (Json.obj (.cons "name" (Json.str "Afar") .nil))
          (.cons "zz" (Json.obj .nil) .nil))) .nil))⟩ ≠
      Except.ok (.cons "aa" (Json.str "Afar") .nil) :=
  missing_name_no_partial_map 200
    (.cons "translation"
      (Json.obj (.cons "aa" (Json.obj (.cons "name" (Json.str "Afar") .nil))
        (.cons "zz" (Json.obj .nil) .nil))) .nil)
    (.cons "aa" (Json.obj (.cons "name" (Json.str "Afar") .nil))
      (.cons "zz" (Json.obj .nil) .nil))
    .nil "zz" rfl
    (by simp [Members.toList]) rfl
    (.cons "aa" (Json.str "Afar") .nil)

/-- Claim C9: no type validation on the `name` values — whatever JSON
value a descriptor stores under `name`, string or not, is inserted into
the Language Map unchanged. -/
theorem name_value_not_validated (status : Nat) (body entries : Members)
    (names : String → Json → Json)
    (htr : body.lookup "translation" = some (Json.obj entries))
    (hnames : ∀ p ∈ entries.toList,
      getItem p.2 "name" = Except.ok (names p.1 p.2))
    (hnodup : entries.keys.Nodup) :
    get_support_languages ⟨status, Except.ok (Json.obj body)⟩ =
      Except.ok (entries.mapVals names) := by
  rw [get_support_languages_eq_build status body entries htr]
  exact buildLangMap_names names entries .nil hnames (fun k _ => rfl) hnodup

/-- Claim C9, instantiated at descriptors whose `name` holds a number
and a null: both land in the result unchanged. -/
theorem name_value_not_validated_witness :
    get_support_languages ⟨200, Except.ok (Json.obj (.cons "translation"
        (Json.obj (.cons "en" (Json.obj (.cons "name" (Json.num 42) .nil))
          (.cons "xx" (Json.obj (.cons "name" Json.null .nil)) .nil))) .nil))⟩ =
      Except.ok (.cons "en" (Json.num 42) (.cons "xx" Json.null .nil)) :=
  name_value_not_validated 200
    (.cons "translation"
      (Json.obj (.cons "en" (Json.obj (.cons "name" (Json.num 42) .nil))
        (.cons "xx" (Json.obj (.cons "name" Json.null .nil)) .nil))) .nil)
    (.cons "en" (Json.obj (.cons "name" (Json.num 42) .nil))
      (.cons "xx" (Json.obj (.cons "name" Json.null .nil)) .nil))
    (fun k _ => if k == "en" then Json.num 42 else Json.null)
    rfl
    (by
      intro p hp
      simp only [Members.toList, List.mem_cons, List.not_mem_nil, or_false] at hp
      rcases hp with rfl | rfl <;> rfl)
    (by decide)

/-- Claim C10: a `translation` field that is present but not an object
makes the `.items()` call raise `AttributeError`, so no mapping is
returned. -/
theorem translation_not_object_raises (status : Nat) (body : Members)
    (t : Json)
    (htr : body.lookup "translation" = some t)
    (hno : ∀ ms, t ≠ Json.obj ms) :
    get_support_languages ⟨status, Except.ok (Json.obj body)⟩ =
      Except.error PyError.attributeError := by
  have hit : items t = Except.error PyError.attributeError := by
    cases t with
    | obj ms => exact absurd rfl (hno ms)
    | null => rfl
    | bool b => rfl
    | num n => rfl
    | str s => rfl
    | arr xs => rfl
  simp [get_support_languages, getItem, htr, hit]

/-- Claim C10, instantiated at a `translation` field holding an array. -/
theorem translation_not_object_raises_witness :
    get_support_languages ⟨200, Except.ok (Json.obj
        (.cons "translation" (Json.arr .nil) .nil))⟩ =
      Except.error PyError.attributeError :=
  translation_not_object_raises 200
    (.cons "translation" (Json.arr .nil) .nil) (Json.arr .nil) rfl
    (fun _ h => Json.noConfusion h)

end BingTranslator
